import Mathlib

/-!
Shallow embedding of the mock resolution engine of `api-mocker`
(`src/lib/index.js`, class `ApiMocker`).

Modelling conventions:
* JSON values are `JVal`; a parsed JSON document (always an object at top
  level in this program) is `JsonObj := List (String × JVal)` in key order.
  `JSON.parse` produces objects with unique keys, so association-list
  lookup (first occurrence) coincides with JS property access on every
  reachable value.
* The mock directory tree is a list `FS` of files, each holding its path
  segments (relative to the mock root, last segment = file name) and its
  content: `.ok obj` for a readable well-formed JSON file, `.error ()` for
  a file whose `readFileSync`/`JSON.parse` would throw.  The list order is
  the directory-walk order, which the source treats as implementation
  defined but deterministic.
* JS exceptions that escape a function are modelled with `Except Unit`;
  functions whose every JS exception is caught internally are total.
* `Math.random()` draws are explicit parameters `r1 r2 : Rat` (the source
  draws lie in `[0,1)`).
* The artificial delay and logging are timing/IO effects with no influence
  on the returned value and are not modelled.
* String helpers are re-implemented over `String.data` (lists of
  characters) so that closed terms reduce in the kernel; on the ASCII
  names and paths this program manipulates they agree with the JS
  UTF-16-based operations.
-/

/-- JSON values.  Numbers are modelled as integers (no claim depends on
non-integral numerics, and JS `NaN` never arises here). -/
inductive JVal where
  | jnull
  | jbool (b : Bool)
  | jnum (n : Int)
  | jstr (s : String)
  | jobj (fields : List (String × JVal))
  | jarr (elems : List JVal)
  deriving Repr

/-- A parsed JSON object: fields in key order, keys unique on every value
produced by `JSON.parse`. -/
abbrev JsonObj := List (String × JVal)

/-- One file of the mock directory tree. -/
structure MockFile where
  segs : List String
  content : Except Unit JsonObj

/-- The mock directory tree, files listed in directory-walk order. -/
abbrev FS := List MockFile

/-- Engine configuration (`constructor`): only `errorRate` influences the
value of a resolution; `delay` and `logger` are timing/log effects. -/
structure ApiMocker where
  errorRate : Rat

/- ---------------------------------------------------------------------
Kernel-friendly string helpers (agreeing with the JS operations used by
the source on the ASCII strings this program manipulates).
--------------------------------------------------------------------- -/

/-- JS `String.prototype.startsWith`. -/
def strStartsWith (s pre : String) : Bool :=
  pre.data.isPrefixOf s.data

/-- JS `String.prototype.endsWith`. -/
def strEndsWith (s suf : String) : Bool :=
  suf.data.reverse.isPrefixOf s.data.reverse

/-- Split a list of characters at `/` (JS `split('/')`, which keeps empty
pieces; the callers filter them out). -/
def splitChars : List Char → List Char → List (List Char)
  | [], cur => [cur.reverse]
  | '/' :: cs, cur => cur.reverse :: splitChars cs []
  | c :: cs, cur => splitChars cs (c :: cur)

/-- `path.split('/').filter(Boolean)`: the non-empty segments of a path. -/
def segsOfPath (s : String) : List String :=
  ((splitChars s.data []).map String.mk).filter (fun seg => seg ≠ "")

/-- Join segments with `/` (inverse of splitting, for building the
directory-template string handed to the path matcher). -/
def joinSlash : List String → String
  | [] => ""
  | [x] => x
  | x :: xs => x ++ "/" ++ joinSlash xs

/-- Decimal digits of a natural number (fuel-driven so that closed terms
reduce in the kernel). -/
def natStrAux : Nat → Nat → List Char → List Char
  | 0, _, acc => acc
  | f + 1, n, acc =>
    let acc' := Char.ofNat (48 + n % 10) :: acc
    if n < 10 then acc' else natStrAux f (n / 10) acc'

/-- Decimal rendering of a natural number. -/
def natStr (n : Nat) : String :=
  String.mk (natStrAux (n + 1) n [])

/-- JS `String(n)` for an integer `n`. -/
def intStr : Int → String
  | .ofNat n => natStr n
  | .negSucc m => "-" ++ natStr (m + 1)

/-- Lower-casing (JS `toLowerCase`, ASCII range). -/
def lowerStr (s : String) : String :=
  String.mk (s.data.map Char.toLower)

/-- Substring containment of `sub` in a character list
(JS `String.prototype.includes`). -/
def hasSubstrAux (sub : List Char) : List Char → Bool
  | [] => sub.isEmpty
  | c :: cs => sub.isPrefixOf (c :: cs) || hasSubstrAux sub cs

/-- JS `s.includes(sub)`. -/
def hasSubstr (s sub : String) : Bool :=
  hasSubstrAux sub.data s.data

/- ---------------------------------------------------------------------
JSON-value helpers mirroring the JS idioms of the source.
--------------------------------------------------------------------- -/

/-- JS truthiness of a JSON value (`NaN` cannot arise in this model). -/
def truthy : JVal → Bool
  | .jnull => false
  | .jbool b => b
  | .jnum n => !(n == 0)
  | .jstr s => !(s == "")
  | .jobj _ => true
  | .jarr _ => true

/-- JS `x || d` on an optional property value (`none` = absent property,
i.e. `undefined`, which is falsy). -/
def jsOr (v : Option JVal) (d : JVal) : JVal :=
  match v with
  | some x => if truthy x then x else d
  | none => d

/-- JS `delete obj[k]` (on parse-produced objects the key occurs at most
once, so removing every occurrence is equivalent). -/
def eraseKey (k : String) (o : JsonObj) : JsonObj :=
  o.filter (fun kv => kv.1 ≠ k)

/-- JS property access `obj[k]` on a parsed object: the value at the
first (on parse output: only) occurrence of the key, `none` when absent
(`undefined`). -/
def getProp (o : JsonObj) (k : String) : Option JVal :=
  match o with
  | [] => none
  | (a, v) :: rest => if a = k then some v else getProp rest k

/-- JS spread `{...a, ...b}`: keys of `a` in their order with values
overridden by `b` where present, then the keys of `b` not in `a`, in
`b`'s order. -/
def spreadMerge (a b : JsonObj) : JsonObj :=
  (a.map fun kv => (kv.1, match getProp b kv.1 with | some v => v | none => kv.2))
    ++ b.filter (fun kv => (getProp a kv.1).isNone)

/-- JS strict equality `===` between a request-supplied value and a
condition value.  The two operands always come from distinct
`JSON.parse`/request objects, so object and array operands are never
reference-equal: `===` is structural on scalars and false otherwise. -/
def strictEq : JVal → JVal → Bool
  | .jnull, .jnull => true
  | .jbool a, .jbool b => a == b
  | .jnum a, .jnum b => a == b
  | .jstr a, .jstr b => a == b
  | _, _ => false

/-- `response._echo === true` style test on an optional property. -/
def isTrueVal : Option JVal → Bool
  | some (.jbool true) => true
  | _ => false

/- ---------------------------------------------------------------------
Filesystem primitives.
--------------------------------------------------------------------- -/

/-- `fs.existsSync` on a file path. -/
def fileExists (fs : FS) (p : List String) : Bool :=
  fs.any fun f => f.segs == p

/-- `fs.existsSync` on a directory path (a directory exists when some file
lies strictly below it; empty directories are not representable and the
source never creates them). -/
def dirExists (fs : FS) (d : List String) : Bool :=
  fs.any fun f => d.isPrefixOf f.segs && decide (d.length < f.segs.length)

/-- `fs.readdirSync dir`: the names of the entries (files and
subdirectories) directly inside `dir`, each listed once, in order of
first appearance in the walk order. -/
def childrenOf (fs : FS) (d : List String) : List String :=
  (fs.filterMap fun f => if d.isPrefixOf f.segs then f.segs[d.length]? else none).foldl
    (fun acc x => if x ∈ acc then acc else acc ++ [x]) []

/-- `readFileSync` + `JSON.parse` on a path: `none` when no such file
exists (the read throws), `some (.error ())` when the file exists but
reading/parsing throws, `some (.ok o)` on success. -/
def readJson (fs : FS) (p : List String) : Option (Except Unit JsonObj) :=
  (fs.find? fun f => f.segs == p).map (·.content)

/- ---------------------------------------------------------------------
`parsePathParams` (source lines 16-46).
--------------------------------------------------------------------- -/

/-- A template segment `[param]` (source line 34). -/
def isParamSeg (d : String) : Bool :=
  strStartsWith d "[" && strEndsWith d "]"

/-- `dirPart.substring(1, dirPart.length - 1)`. -/
def paramNameOf (d : String) : String :=
  String.mk ((d.data.drop 1).dropLast)

/-- The per-segment loop of `parsePathParams` (source lines 29-43):
parameter segments bind, literal segments must be equal, bindings are
collected in segment order. -/
def matchSegs : List String → List String → Option (List (String × String))
  | [], [] => some []
  | d :: ds, r :: rs =>
    if isParamSeg d then
      (matchSegs ds rs).map (fun ps => (paramNameOf d, r) :: ps)
    else if d == r then
      matchSegs ds rs
    else
      none
  | _, _ => none

/-- `parsePathParams(requestPath, mockDirPath)` (source lines 16-46).
The source accumulates bindings in a JS object; on templates with
distinct parameter names (the only ones the tool documents) that object
is exactly this ordered binding list. -/
def parsePathParams (requestPath mockDirPath : String) : Option (List (String × String)) :=
  let dirParts := segsOfPath mockDirPath
  let requestParts := segsOfPath requestPath
  if dirParts.length = requestParts.length then
    matchSegs dirParts requestParts
  else
    none

/- ---------------------------------------------------------------------
`findMock` / `findMockWithParams` / `getAllMockPaths`
(source lines 54-157).
--------------------------------------------------------------------- -/

/-- Trailing-slash trim plus leading-slash normalization
(source lines 55-58 and 248-250). -/
def normalizePath (p : String) : String :=
  let t := if strEndsWith p "/" then String.mk p.data.dropLast else p
  if strStartsWith t "/" then t else "/" ++ t

/-- The legacy method-agnostic file `exactPath + '.json'`
(source line 69).  For the root path the JS expression denotes a sibling
of the mock root, which lies outside the modelled tree and hence never
exists: `none`. -/
def agnosticSegs : List String → Option (List String)
  | [] => none
  | segs => some (segs.dropLast ++ [segs.getLastD "" ++ ".json"])

/-- `fs.existsSync(exactPath + '.json')`. -/
def agnosticExists (fs : FS) (exact : List String) : Bool :=
  match agnosticSegs exact with
  | some ap => fileExists fs ap
  | none => false

/-- `getAllMockPaths` (source lines 131-157): every `.json` file in walk
order, skipping subtrees rooted at directories named `_errors` or
`errors`. -/
def getAllMockPaths (fs : FS) : List (List String) :=
  (fs.filter fun f =>
    f.segs.dropLast.all (fun dname => !(dname == "_errors" || dname == "errors")) &&
      strEndsWith (f.segs.getLastD "") ".json").map (·.segs)

/-- `path.basename(mockPath)`. -/
def fileBasename (segs : List String) : String :=
  segs.getLastD ""

/-- Node `path.basename(requestPath)` on the normalized request paths the
source passes (leading slash, no trailing slash): the last segment, or
`""` for the root path. -/
def jsBasename (p : String) : String :=
  (segsOfPath p).getLastD ""

/-- The template string built from a candidate file's containing
directory (source lines 112-114): `dirname` of the path relative to the
mock root, `'.'` becoming `/`. -/
def mockDirTemplate (segs : List String) : String :=
  match segs.dropLast with
  | [] => "/"
  | ds => "/" ++ joinSlash ds

/-- `findMockWithParams` (source lines 93-125): first enumerated `.json`
file whose name passes the method-compatibility filter and whose
containing directory, read as a template, matches the request path. -/
def findMockWithParams (fs : FS) (requestPath method : String) : Option (List String) :=
  (getAllMockPaths fs).find? fun mp =>
    (fileBasename mp == method ++ ".json" ||
      fileBasename mp == "index.json" ||
      fileBasename mp == jsBasename requestPath ++ ".json") &&
    (parsePathParams requestPath (mockDirTemplate mp)).isSome

/-- The segments of `exactPath` (source line 61): the normalized request
path relative to the mock root. -/
def exactSegs (requestPath : String) : List String :=
  segsOfPath (normalizePath requestPath)

/-- `findMock` (source lines 54-85).  The fourth check repeats the third
with a `method === 'GET'` guard and is therefore unreachable; it is kept
to mirror the source. -/
def findMock (fs : FS) (requestPath method : String) : Option (List String) :=
  let normalizedPath := normalizePath requestPath
  let exact := exactSegs requestPath
  if fileExists fs (exact ++ [method ++ ".json"]) then
    some (exact ++ [method ++ ".json"])
  else if agnosticExists fs exact then
    agnosticSegs exact
  else if fileExists fs (exact ++ ["index.json"]) then
    some (exact ++ ["index.json"])
  else if method == "GET" && fileExists fs (exact ++ ["index.json"]) then
    some (exact ++ ["index.json"])
  else
    findMockWithParams fs normalizedPath method

/- ---------------------------------------------------------------------
Condition evaluation (`evaluateConditions`, source lines 355-392) and
`errorApplies` (source lines 319-345).
--------------------------------------------------------------------- -/

/-- One declared error condition: the optional `body`/`query`/`headers`
maps of key checks. -/
structure Cond where
  body : Option JsonObj
  query : Option JsonObj
  headers : Option JsonObj

/-- The inner check loop (source lines 360-365 and analogues): every
declared key must be present in the request map with a strictly equal
value (`body[key] !== value` fails in JS when `body[key]` is
`undefined`, i.e. when the key is absent). -/
def entriesMatch (cm m : JsonObj) : Bool :=
  cm.all fun kv =>
    match getProp m kv.1 with
    | some v => strictEq v kv.2
    | none => false

/-- One guarded check block (source lines 359-366 and analogues): it
runs only when both the condition map and the corresponding request map
are present (`condition.body && body`); otherwise it is skipped and
`matches` stays `true`. -/
def mapCheck : Option JsonObj → Option JsonObj → Bool
  | some cm, some m => entriesMatch cm m
  | _, _ => true

/-- One condition against one request (source lines 357-384). -/
def condMatches (c : Cond) (body query headers : Option JsonObj) : Bool :=
  mapCheck c.body body && mapCheck c.query query && mapCheck c.headers headers

/-- `evaluateConditions` (source lines 355-392): any condition matching
makes the scenario fire. -/
def evaluateConditions (conds : List Cond) (body query headers : Option JsonObj) : Bool :=
  conds.any fun c => condMatches c body query headers

/-- Reading an optional condition map out of a condition object's
property.  A truthy non-object value is modelled as an absent map
(check skipped): for numbers and booleans this agrees with JS
(`Object.entries` yields no entries, so the check block passes
vacuously, just like a skip); for a string or array, JS would instead
enumerate index/character entries and the check would generally fail —
such condition maps do not occur in condition files. -/
def asCondMap : Option JVal → Option JsonObj
  | some (.jobj o) => some o
  | _ => none

/-- Decoding one element of a `_conditions` array.  A non-object,
non-null element has no `body`/`query`/`headers` properties, so every
check block is skipped and it matches unconditionally, exactly as in JS;
a `null` element, on which the JS property access `condition.body` would
throw uncaught, does not occur in condition files and is not modelled
(it is treated as vacuously matching). -/
def condOfVal : JVal → Cond
  | .jobj o => ⟨asCondMap (getProp o "body"), asCondMap (getProp o "query"), asCondMap (getProp o "headers")⟩
  | _ => ⟨none, none, none⟩

/-- Decoding a `_conditions` value.  The JS `for...of` iterates arrays
element-wise and strings character-wise (each character is a string with
no `body`/`query`/`headers` property, i.e. a vacuously matching
condition); a truthy non-iterable `_conditions` (object, number, `true`)
would make the JS `for...of` throw uncaught — that raise does not occur
in condition files and is not modelled (the value is treated as an empty
list, i.e. as never firing). -/
def condsOfVal : JVal → List Cond
  | .jarr elems => elems.map condOfVal
  | .jstr s => s.data.map fun _ => ⟨none, none, none⟩
  | _ => []

/-- The built-in named scenarios (source lines 326-344).  The JS
predicates are partial: `body.email.includes('existing')` (line 328)
throws an uncaught TypeError when `email` is a truthy non-string
without `.includes` (number, boolean, object), and fires on an array
containing exactly `"existing"` via `Array.prototype.includes`;
`headers.authorization.startsWith` likewise throws on a truthy
non-string.  This model totalizes all of these as not firing — it
under-reports the source's raise paths, so no theorem below claims an
exhaustive characterization of when the engine raises. -/
def namedScenarioApplies (scenario : String) (body _query headers : Option JsonObj) : Bool :=
  match scenario with
  | "existing_email" =>
    (match body with
      | some b =>
        (match getProp b "email" with
          | some (.jstr s) => !(s == "") && hasSubstr s "existing"
          | _ => false)
      | none => false)
  | "invalid_input" =>
    (match body with
      | some b =>
        (match getProp b "name" with
          | some (.jstr s) => s == ""
          | _ => false) ||
        (match getProp b "email" with
          | some (.jstr s) => s == ""
          | _ => false) ||
        (match getProp b "password" with
          | some (.jstr s) => !(s == "") && decide (s.data.length < 6)
          | _ => false)
      | none => false)
  | "unauthorized" =>
    (match headers with
      | some h =>
        (match getProp h "authorization" with
          | some (.jstr s) => !(!(s == "") && strStartsWith s "Bearer ")
          | some v => !truthy v
          | none => true)
      | none => true)
  | "forbidden" =>
    (match headers with
      | some h =>
        (match getProp h "role" with
          | some (.jstr s) => s == "guest"
          | _ => false)
      | none => false)
  | _ => false

/-- `errorApplies` (source lines 319-345): explicit `_conditions` (when
truthy — note an empty JSON array is truthy) take precedence over the
named-scenario table. -/
def errorApplies (errorData : JsonObj) (scenario : String)
    (body query headers : Option JsonObj) : Bool :=
  match getProp errorData "_conditions" with
  | some v =>
    if truthy v then evaluateConditions (condsOfVal v) body query headers
    else namedScenarioApplies scenario body query headers
  | none => namedScenarioApplies scenario body query headers

/- ---------------------------------------------------------------------
`checkForSpecificError` (source lines 246-308).
--------------------------------------------------------------------- -/

/-- The `{statusCode, headers, body}` triple every resolution produces.
`statusCode` and `headers` are JSON values because the JS code passes
whatever truthy value the payload's directives carried. -/
structure MockResponse where
  body : JsonObj
  statusCode : JVal
  headers : JVal

/-- `errorFile.substring(method.length + 1, errorFile.length - 5)`:
the scenario name between `<METHOD>_` and `.json`. -/
def scenarioOf (method f : String) : String :=
  String.mk ((f.data.take (f.data.length - 5)).drop (method.data.length + 1))

/-- `_statusCode`/`_headers`/`_conditions` stripping and defaulting for a
fired scenario (source lines 291-303). -/
def buildScenarioResponse (errorData : JsonObj) : MockResponse :=
  { body := eraseKey "_conditions" (eraseKey "_headers" (eraseKey "_statusCode" errorData)),
    statusCode := jsOr (getProp errorData "_statusCode") (.jnum 400),
    headers := jsOr (getProp errorData "_headers") (.jobj []) }

/-- The per-file loop of `checkForSpecificError` (source lines 278-305).
The reads at source lines 285-286 are not inside any try/catch: an
unreadable or malformed scenario file makes the whole resolution throw,
modelled as `.error ()`. -/
def findScenario (fs : FS) (errorsDir : List String) (method : String)
    (body query headers : Option JsonObj) :
    List String → Except Unit (Option MockResponse)
  | [] => .ok none
  | f :: rest =>
    match readJson fs (errorsDir ++ [f]) with
    | some (.ok errorData) =>
      if errorApplies errorData (scenarioOf method f) body query headers then
        .ok (some (buildScenarioResponse errorData))
      else
        findScenario fs errorsDir method body query headers rest
    | _ => .error ()

/-- `checkForSpecificError` (source lines 246-308): descend the tree
segment by segment, at each level preferring the first bracket-named
entry of the current directory over the literal segment, then evaluate
the `errors` subdirectory of the reached leaf.  The source calls
`readdirSync` on any path `existsSync` confirms (lines 258, 269-275),
so a plain file shadowing a walked segment, or a file named `errors`,
raises an uncaught ENOTDIR there; this model's `dirExists`-guarded walk
treats such paths as directories without children (no raise), another
reason no theorem below claims the raise paths exhaustively. -/
def checkForSpecificError (fs : FS) (requestPath method : String)
    (body query headers : Option JsonObj) : Except Unit (Option MockResponse) :=
  let normalizedPath := normalizePath requestPath
  let pathParts := segsOfPath normalizedPath
  let errorDir := pathParts.foldl
    (fun dir part =>
      let files := if dirExists fs dir then childrenOf fs dir else []
      match files.find? (fun f => strStartsWith f "[" && strEndsWith f "]") with
      | some dyn => dir ++ [dyn]
      | none => dir ++ [part])
    []
  let errorsDir := errorDir ++ ["errors"]
  if dirExists fs errorsDir then
    let errorFiles := (childrenOf fs errorsDir).filter
      (fun f => strStartsWith f (method ++ "_") && strEndsWith f ".json")
    findScenario fs errorsDir method body query headers errorFiles
  else
    .ok none

/- ---------------------------------------------------------------------
`getErrorResponse` (source lines 401-466).
--------------------------------------------------------------------- -/

/-- A forced/synthesized error code: JS passes either a number or a name
string. -/
inductive ErrCode where
  | num (n : Int)
  | name (s : String)

/-- JS truthiness of an error-code value (`0` and `""` are falsy). -/
def errTruthy : ErrCode → Bool
  | .num n => !(n == 0)
  | .name s => !(s == "")

/-- The named-error map (source lines 403-410). -/
def errorMapLookup : String → Option Int
  | "badrequest" => some 400
  | "unauthorized" => some 401
  | "forbidden" => some 403
  | "notfound" => some 404
  | "conflict" => some 409
  | "servererror" => some 500
  | _ => none

/-- JS `parseInt(s, 10)`: optional leading whitespace, optional sign,
then leading decimal digits; `none` (`NaN`) when no digit follows. -/
def jsParseInt (s : String) : Option Int :=
  let cs := s.data.dropWhile (fun c => c == ' ' || c == '\t' || c == '\n' || c == '\r')
  let signAndRest : Int × List Char :=
    match cs with
    | '-' :: r => (-1, r)
    | '+' :: r => (1, r)
    | r => (1, r)
  let ds := signAndRest.2.takeWhile Char.isDigit
  if ds.isEmpty then none
  else some (signAndRest.1 * Int.ofNat (ds.foldl (fun n c => n * 10 + (c.toNat - 48)) 0))

/-- Source lines 412-415: `parseInt`, falling back to the named map, and
to 500 for unknown names. -/
def resolveStatusCode : ErrCode → Int
  | .num n => n
  | .name s =>
    match jsParseInt s with
    | some n => n
    | none => (errorMapLookup (lowerStr s)).getD 500

/-- The built-in default bodies (source lines 450-459), with
`defaultErrors[statusCode] || defaultErrors[500]` for unknown codes. -/
def defaultErrorBody (statusCode : Int) (requestPath method : String) : JsonObj :=
  if statusCode = 400 then
    [("error", .jstr "Bad Request"),
     ("message", .jstr "The request was malformed or contains invalid parameters.")]
  else if statusCode = 401 then
    [("error", .jstr "Unauthorized"),
     ("message", .jstr "Authentication is required to access this resource.")]
  else if statusCode = 403 then
    [("error", .jstr "Forbidden"),
     ("message", .jstr "You do not have permission to access this resource.")]
  else if statusCode = 404 then
    [("error", .jstr "Not Found"),
     ("message", .jstr ("Resource at " ++ method ++ " " ++ requestPath ++ " was not found."))]
  else if statusCode = 409 then
    [("error", .jstr "Conflict"),
     ("message", .jstr "The request conflicts with the current state of the server.")]
  else if statusCode = 429 then
    [("error", .jstr "Too Many Requests"),
     ("message", .jstr "Rate limit exceeded. Please try again later.")]
  else if statusCode = 503 then
    [("error", .jstr "Service Unavailable"),
     ("message", .jstr "The service is currently unavailable. Please try again later.")]
  else
    [("error", .jstr "Internal Server Error"),
     ("message", .jstr "An unexpected error occurred while processing the request.")]

/-- The fallback error response (source lines 461-465). -/
def defaultErrorResponse (statusCode : Int) (requestPath method : String) : MockResponse :=
  { body := defaultErrorBody statusCode requestPath method,
    statusCode := .jnum statusCode,
    headers := .jobj [] }

/-- Left-to-right non-overlapping replacement of a non-empty pattern in
a character list (JS `String.prototype.replace` with a global literal
pattern; scanning resumes after each substitution).  The fuel argument,
always instantiated with the list's length, only makes the recursion
structural. -/
def replaceAllAux (pat sub : List Char) : Nat → List Char → List Char
  | 0, s => s
  | _ + 1, [] => []
  | f + 1, c :: cs =>
    if !pat.isEmpty && pat.isPrefixOf (c :: cs) then
      sub ++ replaceAllAux pat sub f ((c :: cs).drop pat.length)
    else
      c :: replaceAllAux pat sub f cs

/-- JS `s.replace(/pat/g, sub)` for a literal pattern. -/
def replaceAll (pat sub s : List Char) : List Char :=
  replaceAllAux pat sub s.length s

/-- Placeholder interpolation of source lines 428-432, on one string.
The source serializes the template, replaces every literal occurrence of
the two placeholders and re-parses; on templates and request data that
do not inject JSON syntax this equals the structural replacement in
every string of the tree, which is what is modelled (the re-parse
failure of a syntax-injecting replacement would fall back to the default
body and is not modelled). -/
def substStr (requestPath method s : String) : String :=
  String.mk (replaceAll "{method}".data method.data
    (replaceAll "{path}".data requestPath.data s.data))

mutual

/-- Structural placeholder replacement over a JSON tree. -/
def substVal (requestPath method : String) : JVal → JVal
  | .jnull => .jnull
  | .jbool b => .jbool b
  | .jnum n => .jnum n
  | .jstr s => .jstr (substStr requestPath method s)
  | .jobj fields => .jobj (substFields requestPath method fields)
  | .jarr elems => .jarr (substElems requestPath method elems)

/-- Placeholder replacement over an object's fields (keys included,
since the source replaces inside the whole serialized document). -/
def substFields (requestPath method : String) : List (String × JVal) → List (String × JVal)
  | [] => []
  | (k, v) :: rest =>
    (substStr requestPath method k, substVal requestPath method v) ::
      substFields requestPath method rest

/-- Placeholder replacement over an array's elements. -/
def substElems (requestPath method : String) : List JVal → List JVal
  | [] => []
  | v :: rest => substVal requestPath method v :: substElems requestPath method rest

end

/-- `getErrorResponse` (source lines 401-466): resolve the code, serve
the on-disk `_errors/<code>.json` template with placeholders
interpolated when it exists and parses (its `_headers`, read from the
un-interpolated template, become the response headers), otherwise the
built-in default. -/
def getErrorResponse (fs : FS) (errorCode : ErrCode) (requestPath method : String) :
    MockResponse :=
  let statusCode := resolveStatusCode errorCode
  match readJson fs ["_errors", intStr statusCode ++ ".json"] with
  | some (.ok errorTemplate) =>
    { body := substFields requestPath method errorTemplate,
      statusCode := .jnum statusCode,
      headers := jsOr (getProp errorTemplate "_headers") (.jobj []) }
  | _ => defaultErrorResponse statusCode requestPath method

/- ---------------------------------------------------------------------
`getMockResponse` (source lines 168-235).
--------------------------------------------------------------------- -/

/-- The directive handling of a matched rule payload (source lines
199-230): extract then delete `_statusCode`/`_headers`, and overlay the
request body when a `POST`/`PUT` request with a non-null body meets an
`_echo === true` or `_merge === true` directive (deleting only the flag
that fired). -/
def buildRuleResponse (payload : JsonObj) (method : String) (requestBody : Option JsonObj) :
    MockResponse :=
  let statusCode := jsOr (getProp payload "_statusCode") (.jnum 200)
  let headers := jsOr (getProp payload "_headers") (.jobj [])
  let response := eraseKey "_headers" (eraseKey "_statusCode" payload)
  let response :=
    match requestBody with
    | some rb =>
      if method == "POST" || method == "PUT" then
        if isTrueVal (getProp response "_echo") then
          spreadMerge (eraseKey "_echo" response) rb
        else if isTrueVal (getProp response "_merge") then
          spreadMerge (eraseKey "_merge" response) rb
        else response
      else response
    | none => response
  { body := response, statusCode := statusCode, headers := headers }

/-- The `[400,401,403,404,500]` pick of source lines 182-183:
`errorCodes[Math.floor(Math.random() * 5)]`.  For a draw outside
`[0, 1)` — impossible for `Math.random` — the JS indexing would yield
`undefined`; the model totalizes with 500. -/
def randomErrorCode (r2 : Rat) : Int :=
  [400, 401, 403, 404, 500].getD (Int.toNat ⌊r2 * 5⌋) 500

/-- Stages 2-6 of `getMockResponse` (source lines 174-234): declared
error scenarios, random error injection, mock lookup with a
caught-and-500-converted read of the matched rule, and the 404 fallback. -/
def getMockAfterForce (cfg : ApiMocker) (fs : FS) (requestPath method : String)
    (requestBody query headers : Option JsonObj) (r1 r2 : Rat) :
    Except Unit MockResponse :=
  match checkForSpecificError fs requestPath method requestBody query headers with
  | .error e => .error e
  | .ok (some specificError) => .ok specificError
  | .ok none =>
    if cfg.errorRate > 0 ∧ r1 < cfg.errorRate then
      .ok (getErrorResponse fs (.num (randomErrorCode r2)) requestPath method)
    else
      match findMock fs requestPath method with
      | none => .ok (getErrorResponse fs (.num 404) requestPath method)
      | some mockPath =>
        match readJson fs mockPath with
        | some (.ok payload) => .ok (buildRuleResponse payload method requestBody)
        | _ => .ok (getErrorResponse fs (.num 500) requestPath method)

/-- `getMockResponse` (source lines 168-235).  A truthy `forceError`
short-circuits everything; the `Except` layer carries the JS exceptions
that escape the function (only the uncaught scenario-file reads inside
`checkForSpecificError`). -/
def getMockResponse (cfg : ApiMocker) (fs : FS) (requestPath method : String)
    (requestBody query headers : Option JsonObj) (forceError : Option ErrCode)
    (r1 r2 : Rat) : Except Unit MockResponse :=
  match forceError with
  | some fe =>
    if errTruthy fe then .ok (getErrorResponse fs fe requestPath method)
    else getMockAfterForce cfg fs requestPath method requestBody query headers r1 r2
  | none => getMockAfterForce cfg fs requestPath method requestBody query headers r1 r2


/- ---------------------------------------------------------------------
Shared lemmas about the embedded operations.
--------------------------------------------------------------------- -/

/-- Removing a key makes it unlookupable. -/
theorem getProp_eraseKey_self (k : String) (o : JsonObj) :
    getProp (eraseKey k o) k = none := by
  induction o with
  | nil => rfl
  | cons kv rest ih =>
    obtain ⟨a, b⟩ := kv
    by_cases h : a = k
    · simpa [eraseKey, List.filter_cons, h] using ih
    · simpa [eraseKey, List.filter_cons, h, getProp] using ih

/-- Removing one key leaves other keys' values unchanged. -/
theorem getProp_eraseKey_ne (k k' : String) (o : JsonObj) (h : k' ≠ k) :
    getProp (eraseKey k o) k' = getProp o k' := by
  induction o with
  | nil => rfl
  | cons kv rest ih =>
    obtain ⟨a, b⟩ := kv
    by_cases ha : a = k
    · subst ha
      simpa [eraseKey, List.filter_cons, getProp, Ne.symm h] using ih
    · by_cases ha' : a = k'
      · simp [eraseKey, List.filter_cons, ha, getProp, ha', h]
      · simpa [eraseKey, List.filter_cons, ha, getProp, ha'] using ih

/-- Removing an absent key is the identity. -/
theorem eraseKey_of_getProp_none (k : String) (o : JsonObj) (h : getProp o k = none) :
    eraseKey k o = o := by
  induction o with
  | nil => rfl
  | cons kv rest ih =>
    obtain ⟨a, b⟩ := kv
    by_cases ha : a = k
    · simp [getProp, ha] at h
    · simp only [getProp, if_neg ha] at h
      have hk : eraseKey k ((a, b) :: rest) = (a, b) :: eraseKey k rest := by
        simp [eraseKey, List.filter_cons, ha]
      rw [hk, ih h]

/-- `getProp` distributes over append when the key is absent on the
left. -/
theorem getProp_append_of_left_none (k : String) (l1 l2 : JsonObj)
    (h : getProp l1 k = none) : getProp (l1 ++ l2) k = getProp l2 k := by
  induction l1 with
  | nil => rfl
  | cons kv rest ih =>
    obtain ⟨a, b⟩ := kv
    by_cases ha : a = k
    · simp [getProp, ha] at h
    · simp only [getProp, if_neg ha] at h
      simpa [getProp, ha] using ih h

/-- The override map of the spread keeps keys, so an absent key stays
absent. -/
theorem getProp_map_override_none (k : String) (a b : JsonObj)
    (h : getProp a k = none) :
    getProp (a.map fun kv => (kv.1, match getProp b kv.1 with | some v => v | none => kv.2)) k
      = none := by
  induction a with
  | nil => rfl
  | cons kv rest ih =>
    obtain ⟨x, y⟩ := kv
    by_cases hx : x = k
    · simp [getProp, hx] at h
    · simp only [getProp, if_neg hx] at h
      simpa [getProp, hx] using ih h

/-- Filtering preserves key absence. -/
theorem getProp_filter_none (k : String) (p : String × JVal → Bool) (l : JsonObj)
    (h : getProp l k = none) : getProp (l.filter p) k = none := by
  induction l with
  | nil => rfl
  | cons kv rest ih =>
    obtain ⟨a, b⟩ := kv
    by_cases ha : a = k
    · simp [getProp, ha] at h
    · simp only [getProp, if_neg ha] at h
      by_cases hp : p (a, b)
      · simpa [List.filter_cons, hp, getProp, ha] using ih h
      · simpa [List.filter_cons, hp] using ih h

/-- A key absent from both operands is absent from their spread union. -/
theorem getProp_spreadMerge_none (k : String) (a b : JsonObj)
    (ha : getProp a k = none) (hb : getProp b k = none) :
    getProp (spreadMerge a b) k = none := by
  unfold spreadMerge
  rw [getProp_append_of_left_none k _ _ (getProp_map_override_none k a b ha)]
  exact getProp_filter_none k _ b hb

/-- `isTrueVal` decides strict equality with `true`. -/
theorem isTrueVal_iff (v : Option JVal) : isTrueVal v = true ↔ v = some (.jbool true) := by
  cases v with
  | none => simp [isTrueVal]
  | some x =>
    cases x <;> simp [isTrueVal]
    rename_i b
    cases b <;> simp

/-- `strictEq` against a string literal is structural equality. -/
theorem strictEq_jstr_iff (v : JVal) (s : String) :
    strictEq v (.jstr s) = true ↔ v = .jstr s := by
  cases v <;> simp [strictEq]

/-- The segment loop succeeds exactly on equal-length lists whose
non-parameter positions agree. -/
theorem matchSegs_isSome_iff (ds rs : List String) :
    (matchSegs ds rs).isSome = true ↔
      ds.length = rs.length ∧ ∀ p ∈ ds.zip rs, isParamSeg p.1 = true ∨ p.1 = p.2 := by
  induction ds generalizing rs with
  | nil =>
    cases rs with
    | nil => simp [matchSegs]
    | cons r rs => simp [matchSegs]
  | cons d ds ih =>
    cases rs with
    | nil => simp [matchSegs]
    | cons r rs =>
      by_cases hp : isParamSeg d = true
      · simp [matchSegs, hp, ih]
      · by_cases he : d = r
        · subst he
          simp [matchSegs, hp, ih]
        · simp [matchSegs, hp, he]

/-- The bindings returned by the segment loop are precisely the
parameter positions paired with the request segments standing there. -/
theorem matchSegs_eq_some (ds rs : List String) (ps : List (String × String))
    (h : matchSegs ds rs = some ps) :
    ps = (ds.zip rs).filterMap fun p =>
      if isParamSeg p.1 then some (paramNameOf p.1, p.2) else none := by
  induction ds generalizing rs ps with
  | nil =>
    cases rs with
    | nil =>
      simp [matchSegs] at h
      subst h
      rfl
    | cons r rs => simp [matchSegs] at h
  | cons d ds ih =>
    cases rs with
    | nil => simp [matchSegs] at h
    | cons r rs =>
      by_cases hp : isParamSeg d = true
      · simp only [matchSegs, hp, if_true, Option.map_eq_some'] at h
        obtain ⟨ps', hps', rfl⟩ := h
        simp [hp, ih rs ps' hps']
      · by_cases he : d = r
        · subst he
          simp only [matchSegs, hp, if_false, beq_self_eq_true, if_true, Bool.false_eq_true] at h
          simp [hp, ih rs ps h]
        · simp [matchSegs, hp, he] at h

/-- A successful parametrized match forces equal segment counts. -/
theorem parsePathParams_isSome_length (requestPath mockDirPath : String)
    (h : (parsePathParams requestPath mockDirPath).isSome = true) :
    (segsOfPath mockDirPath).length = (segsOfPath requestPath).length := by
  by_contra hne
  simp [parsePathParams, hne] at h

/-- The `_statusCode`/`_headers` strip of a matched rule payload. -/
def strippedPayload (payload : JsonObj) : JsonObj :=
  eraseKey "_headers" (eraseKey "_statusCode" payload)

/-- A body-bearing request meeting `_echo === true` ends in the spread
overlay of the stripped payload (minus the flag) under the request
body. -/
theorem buildRuleResponse_echo_body (payload rb : JsonObj) (m : String)
    (hm : m = "POST" ∨ m = "PUT")
    (he : getProp payload "_echo" = some (.jbool true)) :
    (buildRuleResponse payload m (some rb)).body =
      spreadMerge (eraseKey "_echo" (strippedPayload payload)) rb := by
  have hmb : (m == "POST" || m == "PUT") = true := by
    rcases hm with h | h <;> subst h <;> rfl
  have hre : getProp (strippedPayload payload) "_echo" = some (.jbool true) := by
    rw [strippedPayload, getProp_eraseKey_ne _ _ _ (by decide),
      getProp_eraseKey_ne _ _ _ (by decide), he]
  have ht : isTrueVal (getProp (strippedPayload payload) "_echo") = true := by
    rw [hre]; rfl
  simp only [buildRuleResponse, hmb, if_true]
  rw [show eraseKey "_headers" (eraseKey "_statusCode" payload) = strippedPayload payload from rfl,
    ht]
  simp

/-- A body-bearing request missing `_echo === true` but meeting
`_merge === true` takes the merge branch, with the same overlay. -/
theorem buildRuleResponse_merge_body (payload rb : JsonObj) (m : String)
    (hm : m = "POST" ∨ m = "PUT")
    (hne : getProp payload "_echo" ≠ some (.jbool true))
    (hmg : getProp payload "_merge" = some (.jbool true)) :
    (buildRuleResponse payload m (some rb)).body =
      spreadMerge (eraseKey "_merge" (strippedPayload payload)) rb := by
  have hmb : (m == "POST" || m == "PUT") = true := by
    rcases hm with h | h <;> subst h <;> rfl
  have hree : getProp (strippedPayload payload) "_echo" = getProp payload "_echo" := by
    rw [strippedPayload, getProp_eraseKey_ne _ _ _ (by decide),
      getProp_eraseKey_ne _ _ _ (by decide)]
  have hrem : getProp (strippedPayload payload) "_merge" = some (.jbool true) := by
    rw [strippedPayload, getProp_eraseKey_ne _ _ _ (by decide),
      getProp_eraseKey_ne _ _ _ (by decide), hmg]
  have hte : isTrueVal (getProp (strippedPayload payload) "_echo") = false := by
    rw [hree]
    cases hv : isTrueVal (getProp payload "_echo")
    · rfl
    · exact absurd ((isTrueVal_iff _).mp hv) hne
  have htm : isTrueVal (getProp (strippedPayload payload) "_merge") = true := by
    rw [hrem]; rfl
  simp only [buildRuleResponse, hmb, if_true]
  rw [show eraseKey "_headers" (eraseKey "_statusCode" payload) = strippedPayload payload from rfl,
    hte, htm]
  simp

/-- Without a fired flag (no body, non-body-bearing method, or neither
flag strictly `true`) the body is just the stripped payload. -/
theorem buildRuleResponse_plain_body (payload : JsonObj) (m : String)
    (requestBody : Option JsonObj)
    (hfire : requestBody = none ∨ (m ≠ "POST" ∧ m ≠ "PUT") ∨
      (getProp payload "_echo" ≠ some (.jbool true) ∧
        getProp payload "_merge" ≠ some (.jbool true))) :
    (buildRuleResponse payload m requestBody).body = strippedPayload payload := by
  have hree : getProp (strippedPayload payload) "_echo" = getProp payload "_echo" := by
    rw [strippedPayload, getProp_eraseKey_ne _ _ _ (by decide),
      getProp_eraseKey_ne _ _ _ (by decide)]
  have hrem : getProp (strippedPayload payload) "_merge" = getProp payload "_merge" := by
    rw [strippedPayload, getProp_eraseKey_ne _ _ _ (by decide),
      getProp_eraseKey_ne _ _ _ (by decide)]
  rcases hfire with hb | hm | ⟨hne, hnm⟩
  · subst hb
    simp [buildRuleResponse, strippedPayload]
  · have hmb : (m == "POST" || m == "PUT") = false := by
      simp [hm.1, hm.2]
    cases requestBody with
    | none => simp [buildRuleResponse, strippedPayload]
    | some rb => simp [buildRuleResponse, hmb, strippedPayload]
  · have hte : isTrueVal (getProp (strippedPayload payload) "_echo") = false := by
      rw [hree]
      cases hv : isTrueVal (getProp payload "_echo")
      · rfl
      · exact absurd ((isTrueVal_iff _).mp hv) hne
    have htm : isTrueVal (getProp (strippedPayload payload) "_merge") = false := by
      rw [hrem]
      cases hv : isTrueVal (getProp payload "_merge")
      · rfl
      · exact absurd ((isTrueVal_iff _).mp hv) hnm
    cases requestBody with
    | none => simp [buildRuleResponse, strippedPayload]
    | some rb =>
      by_cases hmb : (m == "POST" || m == "PUT") = true
      · simp only [buildRuleResponse, hmb, if_true]
        rw [show eraseKey "_headers" (eraseKey "_statusCode" payload) = strippedPayload payload
          from rfl, hte, htm]
        simp
      · have hmb' : (m == "POST" || m == "PUT") = false := by
          cases hq : (m == "POST" || m == "PUT")
          · rfl
          · exact absurd hq hmb
        simp [buildRuleResponse, hmb', strippedPayload]

/-- A raising scenario check makes the whole post-force pipeline raise. -/
theorem getMockAfterForce_check_error (cfg : ApiMocker) (fs : FS) (p m : String)
    (b q h : Option JsonObj) (r1 r2 : Rat) (e : Unit)
    (hc : checkForSpecificError fs p m b q h = .error e) :
    getMockAfterForce cfg fs p m b q h r1 r2 = .error e := by
  simp [getMockAfterForce, hc]

/-- C1: resolution follows the priority order, first success winning:
(1) a (truthy) `forcedError` synthesizes that error immediately,
bypassing all matching; (2) otherwise a firing error scenario found
along the directory chain is returned; (3) otherwise, with an active
error-injection rate and a draw below it, a synthesized error for a code
from {400, 401, 403, 404, 500} is returned; (4,5) otherwise the `findMock`
lookup (direct, then parametrized) supplies the rule file whose payload
is served; (6) otherwise a 404 error response is returned. -/
theorem c1_resolution_priority (cfg : ApiMocker) (fs : FS) (p m : String)
    (b q h : Option JsonObj) (r1 r2 : Rat) :
    (∀ fe, errTruthy fe = true →
      getMockResponse cfg fs p m b q h (some fe) r1 r2 = .ok (getErrorResponse fs fe p m)) ∧
    (∀ resp, checkForSpecificError fs p m b q h = .ok (some resp) →
      getMockResponse cfg fs p m b q h none r1 r2 = .ok resp) ∧
    (checkForSpecificError fs p m b q h = .ok none → cfg.errorRate > 0 →
      r1 < cfg.errorRate → 0 ≤ r2 → r2 < 1 →
      ∃ c, c ∈ ([400, 401, 403, 404, 500] : List Int) ∧
        getMockResponse cfg fs p m b q h none r1 r2 =
          .ok (getErrorResponse fs (.num c) p m)) ∧
    (checkForSpecificError fs p m b q h = .ok none →
      ¬(cfg.errorRate > 0 ∧ r1 < cfg.errorRate) → findMock fs p m = none →
      getMockResponse cfg fs p m b q h none r1 r2 =
        .ok (getErrorResponse fs (.num 404) p m)) ∧
    (∀ mp payload, checkForSpecificError fs p m b q h = .ok none →
      ¬(cfg.errorRate > 0 ∧ r1 < cfg.errorRate) → findMock fs p m = some mp →
      readJson fs mp = some (.ok payload) →
      getMockResponse cfg fs p m b q h none r1 r2 = .ok (buildRuleResponse payload m b)) := by
  refine ⟨?_, ?_, ?_, ?_, ?_⟩
  · intro fe hfe
    simp [getMockResponse, hfe]
  · intro resp hc
    simp [getMockResponse, getMockAfterForce, hc]
  · intro hc hrate hr1 hr2a hr2b
    refine ⟨randomErrorCode r2, ?_, ?_⟩
    · have h5 : Int.toNat ⌊r2 * 5⌋ < 5 := by
        have hlt : ⌊r2 * 5⌋ < 5 := by
          rw [Int.floor_lt]
          push_cast
          nlinarith
        omega
      unfold randomErrorCode
      generalize Int.toNat ⌊r2 * 5⌋ = i at h5
      interval_cases i <;> decide
    · simp [getMockResponse, getMockAfterForce, hc, hrate, hr1]
  · intro hc hnr hf
    simp [getMockResponse, getMockAfterForce, hc, hnr, hf]
  · intro mp payload hc hnr hf hr
    simp [getMockResponse, getMockAfterForce, hc, hnr, hf, hr]

/-- C1 witness: forcing error 503 on an empty tree returns that
synthesized error immediately. -/
theorem c1_resolution_priority_witness :
    getMockResponse ⟨0⟩ [] "/x" "GET" none (some []) (some []) (some (.num 503)) 0 0 =
      .ok (getErrorResponse [] (.num 503) "/x" "GET") :=
  (c1_resolution_priority ⟨0⟩ [] "/x" "GET" none (some []) (some []) 0 0).1 (.num 503) rfl

/-- C4: the path matcher succeeds exactly when segment counts are equal
and every non-parameter template segment equals the request segment
(case-sensitively), and then binds each bracket-wrapped parameter name
to the request's literal segment at that position. -/
theorem c4_path_matcher_characterization (requestPath mockDirPath : String) :
    ((parsePathParams requestPath mockDirPath).isSome = true ↔
      (segsOfPath mockDirPath).length = (segsOfPath requestPath).length ∧
        ∀ pr ∈ (segsOfPath mockDirPath).zip (segsOfPath requestPath),
          isParamSeg pr.1 = true ∨ pr.1 = pr.2) ∧
    (∀ ps, parsePathParams requestPath mockDirPath = some ps →
      ps = ((segsOfPath mockDirPath).zip (segsOfPath requestPath)).filterMap fun pr =>
        if isParamSeg pr.1 then some (paramNameOf pr.1, pr.2) else none) := by
  constructor
  · constructor
    · intro hsome
      have hlen := parsePathParams_isSome_length _ _ hsome
      have hm : (matchSegs (segsOfPath mockDirPath) (segsOfPath requestPath)).isSome = true := by
        simpa [parsePathParams, hlen] using hsome
      exact (matchSegs_isSome_iff _ _).mp hm
    · rintro ⟨hlen, hall⟩
      have hm := (matchSegs_isSome_iff (segsOfPath mockDirPath)
        (segsOfPath requestPath)).mpr ⟨hlen, hall⟩
      simpa [parsePathParams, hlen] using hm
  · intro ps hps
    have hsome : (parsePathParams requestPath mockDirPath).isSome = true := by
      rw [hps]; rfl
    have hlen := parsePathParams_isSome_length _ _ hsome
    have hm : matchSegs (segsOfPath mockDirPath) (segsOfPath requestPath) = some ps := by
      simpa [parsePathParams, hlen] using hps
    exact matchSegs_eq_some _ _ _ hm

/-- C4 witness: matching `/users/5` against the template `/users/[id]`
binds `id` to `5`. -/
theorem c4_path_matcher_witness :
    ([("id", "5")] : List (String × String)) =
      ((segsOfPath "/users/[id]").zip (segsOfPath "/users/5")).filterMap fun pr =>
        if isParamSeg pr.1 then some (paramNameOf pr.1, pr.2) else none :=
  (c4_path_matcher_characterization "/users/5" "/users/[id]").2 [("id", "5")] rfl

/-- C5: direct lookup checks, in order, the method-specific rule file,
the legacy method-agnostic rule file and the `index`-named rule file,
first existing one winning; only when all are absent does control fall
to the parametrized fallback, so a present exact rule file wins
regardless of parametrized alternatives anywhere in the tree. -/
theorem c5_direct_lookup_precedence (fs : FS) (p m : String) :
    (fileExists fs (exactSegs p ++ [m ++ ".json"]) = true →
      findMock fs p m = some (exactSegs p ++ [m ++ ".json"])) ∧
    (fileExists fs (exactSegs p ++ [m ++ ".json"]) = false →
      agnosticExists fs (exactSegs p) = true →
      findMock fs p m = agnosticSegs (exactSegs p)) ∧
    (fileExists fs (exactSegs p ++ [m ++ ".json"]) = false →
      agnosticExists fs (exactSegs p) = false →
      fileExists fs (exactSegs p ++ ["index.json"]) = true →
      findMock fs p m = some (exactSegs p ++ ["index.json"])) ∧
    (fileExists fs (exactSegs p ++ [m ++ ".json"]) = false →
      agnosticExists fs (exactSegs p) = false →
      fileExists fs (exactSegs p ++ ["index.json"]) = false →
      findMock fs p m = findMockWithParams fs (normalizePath p) m) := by
  refine ⟨?_, ?_, ?_, ?_⟩
  · intro h1
    simp [findMock, h1]
  · intro h1 h2
    simp [findMock, h1, h2]
  · intro h1 h2 h3
    simp [findMock, h1, h2, h3]
  · intro h1 h2 h3
    simp [findMock, h1, h2, h3]

/-- C5 witness: a method-specific file is returned directly, and with it
absent a legacy method-agnostic file is returned, both without
consulting the parametrized fallback. -/
theorem c5_direct_lookup_witness :
    findMock [⟨["a", "GET.json"], .ok []⟩] "/a" "GET" = some ["a", "GET.json"] ∧
    findMock [⟨["a", "b.json"], .ok []⟩, ⟨["[z]", "[w]", "POST.json"], .ok []⟩] "/a/b" "POST" =
      some ["a", "b.json"] :=
  ⟨(c5_direct_lookup_precedence [⟨["a", "GET.json"], .ok []⟩] "/a" "GET").1 rfl,
    (c5_direct_lookup_precedence [⟨["a", "b.json"], .ok []⟩, ⟨["[z]", "[w]", "POST.json"], .ok []⟩]
      "/a/b" "POST").2.1 rfl rfl⟩

/-- A condition whose every declared map faces an absent request map
matches vacuously: each check block is skipped. -/
theorem condMatches_of_absent (c : Cond) (body query headers : Option JsonObj)
    (h1 : c.body = none ∨ body = none) (h2 : c.query = none ∨ query = none)
    (h3 : c.headers = none ∨ headers = none) :
    condMatches c body query headers = true := by
  unfold condMatches
  have e1 : mapCheck c.body body = true := by
    rcases h1 with hh | hh
    · rw [hh]; rfl
    · rw [hh]; cases c.body <;> rfl
  have e2 : mapCheck c.query query = true := by
    rcases h2 with hh | hh
    · rw [hh]; rfl
    · rw [hh]; cases c.query <;> rfl
  have e3 : mapCheck c.headers headers = true := by
    rcases h3 with hh | hh
    · rw [hh]; rfl
    · rw [hh]; cases c.headers <;> rfl
  rw [e1, e2, e3]
  rfl

/-- C2 counterexample: the claim says a missing request body never
matches a body condition, but the scenario with condition
`{body:{email:"a@b.com"}}` fires on a request with no body at all,
because the check block is guarded by `condition.body && body` and is
skipped when `body` is null. -/
theorem c2_missing_body_counterexample :
    errorApplies
      [("_conditions", .jarr [.jobj [("body", .jobj [("email", .jstr "a@b.com")])]])]
      "custom" none (some []) (some []) = true := rfl

/-- C2 (amended): a scenario with the explicit condition set
`[{body:{email:"a@b.com"}}]` fires exactly when the request body is
absent (checks against a missing map are skipped, hence vacuously
satisfied) or the present body's `email` field strictly equals
`a@b.com`; any other present value yields no match. -/
theorem c2_condition_semantics_amended (scenario : String) (q h : JsonObj)
    (body : Option JsonObj) :
    (errorApplies
      [("_conditions", .jarr [.jobj [("body", .jobj [("email", .jstr "a@b.com")])]])]
      scenario body (some q) (some h) = true) ↔
    (body = none ∨ ∃ bv, body = some bv ∧ getProp bv "email" = some (.jstr "a@b.com")) := by
  have hred : errorApplies
      [("_conditions", .jarr [.jobj [("body", .jobj [("email", .jstr "a@b.com")])]])]
      scenario body (some q) (some h) =
      condMatches ⟨some [("email", .jstr "a@b.com")], none, none⟩ body (some q) (some h) := by
    simp [errorApplies, getProp, truthy, condsOfVal, condOfVal, asCondMap, evaluateConditions]
  rw [hred]
  cases body with
  | none =>
    simp [condMatches, mapCheck]
  | some bv =>
    simp only [condMatches, mapCheck, entriesMatch, List.all_cons, List.all_nil,
      Bool.and_true]
    cases he : getProp bv "email" with
    | none => simp [he]
    | some v =>
      simp only [he, Option.some.injEq, Bool.and_eq_true]
      rw [strictEq_jstr_iff]
      constructor
      · intro hv
        exact Or.inr ⟨bv, rfl, by rw [he, hv]⟩
      · rintro (hcon | ⟨bv', hbv, hb⟩)
        · simp at hcon
        · cases hbv
          rw [he] at hb
          exact Option.some.inj hb

/-- C2 amended witness: with a present body carrying the exact email the
scenario fires. -/
theorem c2_condition_semantics_witness :
    errorApplies
      [("_conditions", .jarr [.jobj [("body", .jobj [("email", .jstr "a@b.com")])]])]
      "custom" (some [("email", .jstr "a@b.com")]) (some []) (some []) = true :=
  (c2_condition_semantics_amended "custom" [] []
    (some [("email", .jstr "a@b.com")])).mpr
    (Or.inr ⟨[("email", .jstr "a@b.com")], rfl, rfl⟩)

/-- C10: an empty `_conditions` list never fires, an empty-object
condition `{}` always fires, and more generally a condition whose every
declared map faces a request where that map is absent is treated as
satisfied, so its scenario fires. -/
theorem c10_vacuous_condition_semantics (conds : List Cond)
    (body query headers : Option JsonObj) :
    (evaluateConditions [] body query headers = false) ∧
    ((⟨none, none, none⟩ : Cond) ∈ conds → evaluateConditions conds body query headers = true) ∧
    (∀ c ∈ conds, (c.body = none ∨ body = none) → (c.query = none ∨ query = none) →
      (c.headers = none ∨ headers = none) →
      evaluateConditions conds body query headers = true) ∧
    (∀ scenario, errorApplies [("_conditions", .jarr [])] scenario body query headers = false) ∧
    (∀ scenario,
      errorApplies [("_conditions", .jarr [.jobj []])] scenario body query headers = true) := by
  refine ⟨rfl, ?_, ?_, fun scenario => rfl, ?_⟩
  · intro hmem
    exact List.any_eq_true.mpr ⟨⟨none, none, none⟩, hmem,
      condMatches_of_absent _ _ _ _ (Or.inl rfl) (Or.inl rfl) (Or.inl rfl)⟩
  · intro c hc h1 h2 h3
    exact List.any_eq_true.mpr ⟨c, hc, condMatches_of_absent c body query headers h1 h2 h3⟩
  · intro scenario
    have : condMatches ⟨none, none, none⟩ body query headers = true :=
      condMatches_of_absent _ _ _ _ (Or.inl rfl) (Or.inl rfl) (Or.inl rfl)
    simp [errorApplies, getProp, truthy, condsOfVal, condOfVal, asCondMap,
      evaluateConditions, this]

/-- C10 witness: the empty-object condition fires against a concrete
request, and a body-only condition fires when the body is absent. -/
theorem c10_vacuous_condition_witness :
    evaluateConditions [⟨none, none, none⟩] (some [("x", .jnum 1)]) none none = true ∧
    evaluateConditions [⟨some [("email", .jstr "e")], none, none⟩] none (some []) (some [])
      = true :=
  ⟨(c10_vacuous_condition_semantics [⟨none, none, none⟩] (some [("x", .jnum 1)])
      none none).2.1 (List.mem_singleton.mpr rfl),
    (c10_vacuous_condition_semantics [⟨some [("email", .jstr "e")], none, none⟩] none
      (some []) (some [])).2.2.1 ⟨some [("email", .jstr "e")], none, none⟩
      (List.mem_singleton.mpr rfl) (Or.inr rfl) (Or.inl rfl) (Or.inl rfl)⟩

/-- C3 counterexample: the claim says every directive key is stripped on
every resolution, but a `GET` resolution of a rule file whose payload
carries `_echo: true` returns the flag inside the final body — the
`_echo`/`_merge` deletions only happen on a fired `POST`/`PUT` overlay. -/
theorem c3_directive_leak_counterexample :
    getMockResponse ⟨0⟩ [⟨["a", "GET.json"], .ok [("_echo", .jbool true)]⟩] "/a" "GET"
        none (some []) (some []) none 0 0 =
      .ok ⟨[("_echo", .jbool true)], .jnum 200, .jobj []⟩ := rfl

/-- C3 (amended): `_statusCode` and `_headers` are always stripped from a
matched rule payload, and `_statusCode`/`_headers`/`_conditions` from a
fired error-scenario payload; the `_echo`/`_merge` flag is stripped from
a rule body only when it fired (`POST`/`PUT`, non-null request body,
flag strictly `true`); directive keys can re-enter a rule body only from
the overlaid request body. -/
theorem c3_directive_stripping_amended :
    (∀ payload m, getProp (buildRuleResponse payload m none).body "_statusCode" = none ∧
      getProp (buildRuleResponse payload m none).body "_headers" = none) ∧
    (∀ payload m rb, getProp rb "_statusCode" = none → getProp rb "_headers" = none →
      getProp (buildRuleResponse payload m (some rb)).body "_statusCode" = none ∧
      getProp (buildRuleResponse payload m (some rb)).body "_headers" = none) ∧
    (∀ payload rb m, (m = "POST" ∨ m = "PUT") →
      getProp payload "_echo" = some (.jbool true) → getProp rb "_echo" = none →
      getProp (buildRuleResponse payload m (some rb)).body "_echo" = none) ∧
    (∀ errorData, getProp (buildScenarioResponse errorData).body "_statusCode" = none ∧
      getProp (buildScenarioResponse errorData).body "_headers" = none ∧
      getProp (buildScenarioResponse errorData).body "_conditions" = none) := by
  have hsp1 : ∀ payload, getProp (strippedPayload payload) "_statusCode" = none := by
    intro payload
    rw [strippedPayload, getProp_eraseKey_ne _ _ _ (by decide), getProp_eraseKey_self]
  have hsp2 : ∀ payload, getProp (strippedPayload payload) "_headers" = none := by
    intro payload
    rw [strippedPayload, getProp_eraseKey_self]
  refine ⟨?_, ?_, ?_, ?_⟩
  · intro payload m
    rw [buildRuleResponse_plain_body payload m none (Or.inl rfl)]
    exact ⟨hsp1 payload, hsp2 payload⟩
  · intro payload m rb h1 h2
    by_cases hm : m = "POST" ∨ m = "PUT"
    · by_cases he : getProp payload "_echo" = some (.jbool true)
      · rw [buildRuleResponse_echo_body payload rb m hm he]
        constructor
        · exact getProp_spreadMerge_none _ _ _
            (by rw [getProp_eraseKey_ne _ _ _ (by decide)]; exact hsp1 payload) h1
        · exact getProp_spreadMerge_none _ _ _
            (by rw [getProp_eraseKey_ne _ _ _ (by decide)]; exact hsp2 payload) h2
      · by_cases hmg : getProp payload "_merge" = some (.jbool true)
        · rw [buildRuleResponse_merge_body payload rb m hm he hmg]
          constructor
          · exact getProp_spreadMerge_none _ _ _
              (by rw [getProp_eraseKey_ne _ _ _ (by decide)]; exact hsp1 payload) h1
          · exact getProp_spreadMerge_none _ _ _
              (by rw [getProp_eraseKey_ne _ _ _ (by decide)]; exact hsp2 payload) h2
        · rw [buildRuleResponse_plain_body payload m (some rb) (Or.inr (Or.inr ⟨he, hmg⟩))]
          exact ⟨hsp1 payload, hsp2 payload⟩
    · rw [buildRuleResponse_plain_body payload m (some rb) (Or.inr (Or.inl (not_or.mp hm)))]
      exact ⟨hsp1 payload, hsp2 payload⟩
  · intro payload rb m hm he hrb
    rw [buildRuleResponse_echo_body payload rb m hm he]
    exact getProp_spreadMerge_none _ _ _ (getProp_eraseKey_self _ _) hrb
  · intro errorData
    refine ⟨?_, ?_, ?_⟩
    · show getProp (eraseKey "_conditions" (eraseKey "_headers" (eraseKey "_statusCode"
        errorData))) "_statusCode" = none
      rw [getProp_eraseKey_ne _ _ _ (by decide), getProp_eraseKey_ne _ _ _ (by decide),
        getProp_eraseKey_self]
    · show getProp (eraseKey "_conditions" (eraseKey "_headers" (eraseKey "_statusCode"
        errorData))) "_headers" = none
      rw [getProp_eraseKey_ne _ _ _ (by decide), getProp_eraseKey_self]
    · exact getProp_eraseKey_self _ _

/-- C3 amended witness: a `POST` resolution with a fired `_echo` strips
`_statusCode` and the fired flag from the final body. -/
theorem c3_directive_stripping_witness :
    getProp (buildRuleResponse [("_statusCode", .jnum 7), ("_echo", .jbool true), ("a", .jnum 1)]
        "POST" (some [("b", .jnum 2)])).body "_statusCode" = none ∧
    getProp (buildRuleResponse [("_echo", .jbool true)] "PUT"
        (some [("c", .jnum 3)])).body "_echo" = none :=
  ⟨(c3_directive_stripping_amended.2.1
      [("_statusCode", .jnum 7), ("_echo", .jbool true), ("a", .jnum 1)] "POST"
      [("b", .jnum 2)] rfl rfl).1,
    c3_directive_stripping_amended.2.2.1 [("_echo", .jbool true)] [("c", .jnum 3)] "PUT"
      (Or.inr rfl) rfl rfl⟩

/-- C6 counterexample: the claim says the overlaid body is the payload
with the directives removed, but a payload declaring both flags keeps
the unfired `_merge: true` in the final body (only the fired `_echo` is
deleted). -/
theorem c6_surviving_directive_counterexample :
    getMockResponse ⟨0⟩ [⟨["p", "POST.json"],
        .ok [("_echo", .jbool true), ("_merge", .jbool true), ("a", .jnum 1)]⟩]
      "/p" "POST" (some [("b", .jnum 9)]) (some []) (some []) none 0 0 =
      .ok ⟨[("_merge", .jbool true), ("a", .jnum 1), ("b", .jnum 9)], .jnum 200, .jobj []⟩ ∧
    getProp [("_merge", .jbool true), ("a", .jnum 1), ("b", .jnum 9)] "_merge" =
      some (.jbool true) := ⟨rfl, rfl⟩

/-- C6 (amended): for `POST`/`PUT` with a non-null body, a fired
`_echo === true` (or, failing that, `_merge === true`) makes the final
body the shallow union — request keys winning — of the request body over
the payload with `_statusCode`, `_headers` and the fired flag removed
(other directive keys, e.g. the unfired twin flag, survive); when the
payload carries exactly one flag and is otherwise directive-free, echo
and merge produce identical results. -/
theorem c6_echo_merge_amended :
    (∀ payload rb m, (m = "POST" ∨ m = "PUT") →
      getProp payload "_echo" = some (.jbool true) →
      (buildRuleResponse payload m (some rb)).body =
        spreadMerge (eraseKey "_echo" (strippedPayload payload)) rb) ∧
    (∀ payload rb m, (m = "POST" ∨ m = "PUT") →
      getProp payload "_echo" ≠ some (.jbool true) →
      getProp payload "_merge" = some (.jbool true) →
      (buildRuleResponse payload m (some rb)).body =
        spreadMerge (eraseKey "_merge" (strippedPayload payload)) rb) ∧
    (∀ rest rb m, (m = "POST" ∨ m = "PUT") →
      getProp rest "_echo" = none → getProp rest "_merge" = none →
      (buildRuleResponse (("_echo", .jbool true) :: rest) m (some rb)).body =
        (buildRuleResponse (("_merge", .jbool true) :: rest) m (some rb)).body) := by
  refine ⟨buildRuleResponse_echo_body, buildRuleResponse_merge_body, ?_⟩
  intro rest rb m hm h1 h2
  have heL : getProp (("_echo", .jbool true) :: rest : JsonObj) "_echo" =
      some (.jbool true) := by simp [getProp]
  have hneR : getProp (("_merge", .jbool true) :: rest : JsonObj) "_echo" ≠
      some (.jbool true) := by simp [getProp, h1]
  have hmgR : getProp (("_merge", .jbool true) :: rest : JsonObj) "_merge" =
      some (.jbool true) := by simp [getProp]
  rw [buildRuleResponse_echo_body _ rb m hm heL,
    buildRuleResponse_merge_body _ rb m hm hneR hmgR]
  have hsL : strippedPayload (("_echo", .jbool true) :: rest) =
      ("_echo", .jbool true) :: strippedPayload rest := by
    simp [strippedPayload, eraseKey, List.filter_cons]
  have hsR : strippedPayload (("_merge", .jbool true) :: rest) =
      ("_merge", .jbool true) :: strippedPayload rest := by
    simp [strippedPayload, eraseKey, List.filter_cons]
  have g1 : getProp (strippedPayload rest) "_echo" = none := by
    rw [strippedPayload, getProp_eraseKey_ne _ _ _ (by decide),
      getProp_eraseKey_ne _ _ _ (by decide)]
    exact h1
  have g2 : getProp (strippedPayload rest) "_merge" = none := by
    rw [strippedPayload, getProp_eraseKey_ne _ _ _ (by decide),
      getProp_eraseKey_ne _ _ _ (by decide)]
    exact h2
  rw [hsL, hsR,
    show eraseKey "_echo" (("_echo", .jbool true) :: strippedPayload rest) =
      eraseKey "_echo" (strippedPayload rest) from by simp [eraseKey, List.filter_cons],
    show eraseKey "_merge" (("_merge", .jbool true) :: strippedPayload rest) =
      eraseKey "_merge" (strippedPayload rest) from by simp [eraseKey, List.filter_cons],
    eraseKey_of_getProp_none _ _ g1, eraseKey_of_getProp_none _ _ g2]

/-- C6 witness: payload `{a:1,b:2}` with request body `{b:9,c:3}` yields
`{a:1,b:9,c:3}` under either flag. -/
theorem c6_echo_merge_witness :
    (buildRuleResponse [("_echo", .jbool true), ("a", .jnum 1), ("b", .jnum 2)] "POST"
      (some [("b", .jnum 9), ("c", .jnum 3)])).body =
      [("a", .jnum 1), ("b", .jnum 9), ("c", .jnum 3)] ∧
    (buildRuleResponse [("_merge", .jbool true), ("a", .jnum 1), ("b", .jnum 2)] "POST"
      (some [("b", .jnum 9), ("c", .jnum 3)])).body =
      [("a", .jnum 1), ("b", .jnum 9), ("c", .jnum 3)] :=
  ⟨(c6_echo_merge_amended.1 [("_echo", .jbool true), ("a", .jnum 1), ("b", .jnum 2)]
      [("b", .jnum 9), ("c", .jnum 3)] "POST" (Or.inl rfl) rfl).trans rfl,
    (c6_echo_merge_amended.2.1 [("_merge", .jbool true), ("a", .jnum 1), ("b", .jnum 2)]
      [("b", .jnum 9), ("c", .jnum 3)] "POST" (Or.inl rfl) (by simp [getProp]) rfl).trans rfl⟩

/-- C7: a named error keyword outside the built-in map resolves to 500;
with no readable on-disk template for the resolved status code the
built-in default body is served; and an unknown status code gets the
500 default body. -/
theorem c7_error_synthesis_defaults (fs : FS) (p m : String) :
    (∀ s, jsParseInt s = none → errorMapLookup (lowerStr s) = none →
      resolveStatusCode (.name s) = 500) ∧
    (∀ code, (∀ o, readJson fs ["_errors", intStr (resolveStatusCode code) ++ ".json"] ≠
        some (.ok o)) →
      getErrorResponse fs code p m = defaultErrorResponse (resolveStatusCode code) p m) ∧
    (∀ n : Int, n ∉ ([400, 401, 403, 404, 409, 429, 500, 503] : List Int) →
      defaultErrorBody n p m = defaultErrorBody 500 p m) := by
  refine ⟨?_, ?_, ?_⟩
  · intro s h1 h2
    simp [resolveStatusCode, h1, h2]
  · intro code hno
    cases hr : readJson fs ["_errors", intStr (resolveStatusCode code) ++ ".json"] with
    | none => simp [getErrorResponse, hr]
    | some res =>
      cases res with
      | ok o => exact absurd hr (hno o)
      | error u => simp [getErrorResponse, hr]
  · intro n hn
    simp only [List.mem_cons, List.not_mem_nil, or_false, not_or] at hn
    obtain ⟨h400, h401, h403, h404, h409, h429, h500, h503⟩ := hn
    unfold defaultErrorBody
    rw [if_neg h400, if_neg h401, if_neg h403, if_neg h404, if_neg h409, if_neg h429,
      if_neg h503]
    rfl

/-- C7 witness: the unknown keyword `teapot` resolves to 500; forced 418
on an empty tree gets the built-in default; 418's default body is the
500 default body. -/
theorem c7_error_synthesis_witness :
    resolveStatusCode (.name "teapot") = 500 ∧
    getErrorResponse [] (.num 418) "/p" "GET" = defaultErrorResponse 418 "/p" "GET" ∧
    defaultErrorBody 418 "/p" "GET" = defaultErrorBody 500 "/p" "GET" :=
  ⟨(c7_error_synthesis_defaults [] "/p" "GET").1 "teapot" rfl rfl,
    (c7_error_synthesis_defaults [] "/p" "GET").2.1 (.num 418) (fun o => by simp [readJson]),
    (c7_error_synthesis_defaults [] "/p" "GET").2.2 418 (by decide)⟩

/-- C8 counterexample: a malformed (unreadable or invalid-JSON) error
scenario file is read at source lines 285-286 outside any try/catch, so
the resolution raises to its caller instead of synthesizing a 500. -/
theorem c8_uncaught_scenario_counterexample :
    getMockResponse ⟨0⟩ [⟨["users", "errors", "GET_bad.json"], .error ()⟩] "/users" "GET"
      none (some []) (some []) none 0 0 = .error () := rfl

/-- C8 (amended): the engine can raise.  Provable directions: a truthy
forced error always returns a synthesized triple without touching the
scenario walk; a raising scenario walk (in the model: an unreadable or
malformed scenario file reached by the walk) propagates out of the
resolution uncaught; and a malformed matched rule file, by contrast,
really is caught inside the engine and converted into a synthesized
500.  No exhaustive characterization of the raise paths is claimed: the
source has further uncaught throws (named-scenario TypeErrors,
ENOTDIR on file-shadowed paths) that this model totalizes, as noted at
`namedScenarioApplies` and `checkForSpecificError`. -/
theorem c8_exception_boundary_amended (cfg : ApiMocker) (fs : FS) (p m : String)
    (b q h : Option JsonObj) (fe : Option ErrCode) (r1 r2 : Rat) :
    (∀ e, fe = some e → errTruthy e = true →
      ∃ r, getMockResponse cfg fs p m b q h fe r1 r2 = .ok r) ∧
    (fe = none → checkForSpecificError fs p m b q h = .error () →
      getMockResponse cfg fs p m b q h fe r1 r2 = .error ()) ∧
    (∀ mp, fe = none → checkForSpecificError fs p m b q h = .ok none →
      ¬(cfg.errorRate > 0 ∧ r1 < cfg.errorRate) → findMock fs p m = some mp →
      readJson fs mp = some (.error ()) →
      getMockResponse cfg fs p m b q h fe r1 r2 = .ok (getErrorResponse fs (.num 500) p m)) := by
  refine ⟨?_, ?_, ?_⟩
  · intro e hfe he
    subst hfe
    exact ⟨getErrorResponse fs e p m, by simp [getMockResponse, he]⟩
  · intro hfe hc
    subst hfe
    simp only [getMockResponse]
    exact getMockAfterForce_check_error cfg fs p m b q h r1 r2 () hc
  · intro mp hfe hc hnr hf hr
    subst hfe
    simp [getMockResponse, getMockAfterForce, hc, hnr, hf, hr]

/-- C8 amended witness: a raising scenario read propagates, and a
malformed matched rule file resolves to the synthesized 500 instead of
raising. -/
theorem c8_exception_boundary_witness :
    getMockResponse ⟨0⟩ [⟨["u", "errors", "GET_x.json"], .error ()⟩] "/u" "GET"
      none (some []) (some []) none 0 0 = .error () ∧
    getMockResponse ⟨0⟩ [⟨["a", "GET.json"], .error ()⟩] "/a" "GET"
      none (some []) (some []) none 0 0 =
      .ok (getErrorResponse [⟨["a", "GET.json"], .error ()⟩] (.num 500) "/a" "GET") :=
  ⟨(c8_exception_boundary_amended ⟨0⟩ [⟨["u", "errors", "GET_x.json"], .error ()⟩] "/u" "GET"
      none (some []) (some []) none 0 0).2.1 rfl rfl,
    (c8_exception_boundary_amended ⟨0⟩ [⟨["a", "GET.json"], .error ()⟩] "/a" "GET"
      none (some []) (some []) none 0 0).2.2 ["a", "GET.json"] rfl rfl
      (fun hcon => absurd hcon.1 (lt_irrefl 0)) rfl rfl⟩

/-- C9 counterexample: a fallback candidate passing the filter only
through the request-basename clause can be returned — `[x]/b.json` is
matched for `GET /b`, since its containing directory has the same
segment count as the request, not one fewer as the claim reasons. -/
theorem c9_basename_fallback_counterexample :
    findMockWithParams [⟨["[x]", "b.json"], .ok []⟩] "/b" "GET" = some ["[x]", "b.json"] ∧
    fileBasename ["[x]", "b.json"] ≠ "GET" ++ ".json" ∧
    fileBasename ["[x]", "b.json"] ≠ "index.json" ∧
    fileBasename ["[x]", "b.json"] = jsBasename "/b" ++ ".json" :=
  ⟨rfl, by decide, by decide, rfl⟩

/-- C9 (amended): on a well-formed tree (non-empty file paths whose
directory template re-splits to the directory segments), every file the
fallback returns passed the name filter and matched the full request
against its containing directory, so its path has exactly one segment
more than the request; hence the canonical legacy method-agnostic file
of the request's own path (at `<path>.json`, one segment fewer) is never
returned by the fallback — such files are reachable only through direct
lookup — while basename-named files in parameter directories of the
right depth can be. -/
theorem c9_fallback_shape_amended (fs : FS) (requestPath method : String)
    (mp : List String)
    (hwf : ∀ f ∈ fs, f.segs ≠ [] ∧ segsOfPath (mockDirTemplate f.segs) = f.segs.dropLast)
    (hfind : findMockWithParams fs requestPath method = some mp) :
    (fileBasename mp = method ++ ".json" ∨ fileBasename mp = "index.json" ∨
      fileBasename mp = jsBasename requestPath ++ ".json") ∧
    mp.length = (segsOfPath requestPath).length + 1 ∧
    (segsOfPath requestPath ≠ [] →
      mp ≠ (segsOfPath requestPath).dropLast ++
        [(segsOfPath requestPath).getLastD "" ++ ".json"]) := by
  have hpred := List.find?_some hfind
  have hmem := List.mem_of_find?_eq_some hfind
  obtain ⟨f, hf_mem, hf_eq⟩ : ∃ f ∈ fs, f.segs = mp := by
    unfold getAllMockPaths at hmem
    obtain ⟨f, hf, hfe⟩ := List.mem_map.mp hmem
    exact ⟨f, (List.mem_filter.mp hf).1, hfe⟩
  obtain ⟨hne, hdir⟩ := hwf f hf_mem
  rw [hf_eq] at hne hdir
  simp only [Bool.and_eq_true, Bool.or_eq_true, beq_iff_eq] at hpred
  obtain ⟨hbase, hsome⟩ := hpred
  have hlen := parsePathParams_isSome_length requestPath (mockDirTemplate mp) hsome
  rw [hdir] at hlen
  have hL : mp.length = (segsOfPath requestPath).length + 1 := by
    have hdl : mp.dropLast.length = mp.length - 1 := List.length_dropLast mp
    have hpos : 0 < mp.length := List.length_pos.mpr hne
    omega
  refine ⟨by tauto, hL, ?_⟩
  intro hreq hcontra
  have hlc := congrArg List.length hcontra
  rw [hL] at hlc
  simp only [List.length_append, List.length_dropLast, List.length_cons,
    List.length_nil] at hlc
  have hrpos : 0 < (segsOfPath requestPath).length := List.length_pos.mpr hreq
  omega

/-- C9 amended witness: the shape facts instantiated on the concrete
matched candidate `[x]/b.json` for `GET /b`. -/
theorem c9_fallback_shape_witness :
    (["[x]", "b.json"] : List String).length = (segsOfPath "/b").length + 1 :=
  (c9_fallback_shape_amended [⟨["[x]", "b.json"], .ok []⟩] "/b" "GET" ["[x]", "b.json"]
    (by
      intro f hf
      rw [List.mem_singleton] at hf
      subst hf
      exact ⟨by decide, rfl⟩)
    rfl).2.1
